import Mathlib

/-
Shallow embedding of the zap-errors package (src/errors.go): an
error-enrichment utility over Go's cause-chain error protocol, with a
zap structured-logging adapter.

Modelling conventions:
  * Go's `error` interface values are modelled by `Err`; a nil interface
    value is `Option.none` at use sites (`Option Err`).
  * `Err.plain` models an opaque error without an `Unwrap` method
    (e.g. `errors.New` / non-wrapping `fmt.Errorf`); `Err.wrap` models a
    foreign error that wraps another one (e.g. `fmt.Errorf` with `%w`);
    `Err.enriched` models a value of this package's `Error` struct.
  * `fmt.Sprintf(format, a...)` is abstracted as the already-formatted
    string argument, and `stackTrace()` (which reads the runtime call
    stack) as an explicit `List Frame` argument holding the frames that
    capture would return at that call site; `stackTrace()` in Go always
    returns a non-nil slice, hence builders store `some st`.
  * `payload interface{}` is `Option Payload`; `Payload.unencodable`
    models a value on which `encoder.AddReflected` fails.
  * The zap `ObjectEncoder` is modelled by the ordered list of entries
    added to it; `MarshalLogObject` returns `none` when the Go code
    panics (the nil-interface method call `ee.err.Error()` on line 30
    when `ee.err` is nil), and otherwise `some (entries, returnedErr)`.
-/

set_option autoImplicit false
set_option linter.dupNamespace false
set_option linter.unusedVariables false

namespace ZapErrors

/-- A captured call-stack frame descriptor (runtime.Frame fields used). -/
structure Frame where
  function : String
  file : String
  line : Nat
deriving DecidableEq, Repr

/-- The payload attached to an enriched error: either a value that
`encoder.AddReflected` encodes successfully (abstracted by its encoded
form) or one on which encoding fails with the given error message. -/
inductive Payload where
  | value (s : String)
  | unencodable (msg : String)
deriving DecidableEq, Repr

/-- The universe of Go `error` values relevant to this package:
opaque plain errors, foreign wrapping errors (implementing
`Unwrap() error`), and this package's `Error` struct values. -/
inductive Err where
  | plain (msg : String)
  | wrap (msg : String) (inner : Err)
  | enriched (message : String) (payload : Option Payload) (code : Int)
      (stacktrace : Option (List Frame)) (cause : Option Err)

/-- The package's `Error` struct (src/errors.go lines 12-18). -/
structure Error where
  message : String
  payload : Option Payload
  code : Int
  stacktrace : Option (List Frame)
  err : Option Err

/-- View an `Error` struct value as a Go error interface value. -/
def Error.toErr (ee : Error) : Err :=
  .enriched ee.message ee.payload ee.code ee.stacktrace ee.err

/-- Go's `Error() string` method of each concrete error type in the
universe; for the package's `Error` struct it returns `ee.message`
(src/errors.go lines 20-22). -/
def Err.errorText : Err → String
  | .plain msg => msg
  | .wrap msg _ => msg
  | .enriched message _ _ _ _ => message

/-- Go stdlib `errors.Unwrap`: calls the receiver's `Unwrap() error`
method when it has one (`wrap` and `enriched` do; the struct's method,
src/errors.go lines 24-26, returns `ee.err`), else returns nil. -/
def errorsUnwrap : Option Err → Option Err
  | none => none
  | some (.plain _) => none
  | some (.wrap _ inner) => some inner
  | some (.enriched _ _ _ _ cause) => cause

/-- Go stdlib `errors.As` with target of type `*Error`: walk the cause
chain and, at the first element whose concrete type is `Error`, assign
it to the target; plain errors have no `Unwrap` method so the walk
stops there. Returns the assigned value. -/
def Err.findEnriched : Err → Option Error
  | .plain _ => none
  | .wrap _ inner => inner.findEnriched
  | .enriched message payload code stacktrace cause =>
      some ⟨message, payload, code, stacktrace, cause⟩

/-- The target types passed to `errors.As` in this package: `*Error`
(a pointer to the struct) and `*interface\x7b\x7d` (a pointer to the empty
interface, which every error value is assignable to). -/
inductive AsTarget where
  | errorPtr
  | anyPtr
deriving DecidableEq, Repr

/-- Go stdlib `errors.As` as a boolean chain test, for the two target
types this package uses: for `anyPtr` the very first non-nil chain
element is assignable; for `errorPtr` only an `enriched` element is,
and a non-matching element is never `enriched`, so the walk only ever
descends through `wrap`. -/
def Err.asMatch : Err → AsTarget → Bool
  | _, .anyPtr => true
  | .plain _, .errorPtr => false
  | .wrap _ inner, .errorPtr => inner.asMatch .errorPtr
  | .enriched _ _ _ _ _, .errorPtr => true

/-- Go stdlib `errors.As` on a possibly-nil error: nil yields false. -/
def errorsAs (err : Option Err) (target : AsTarget) : Bool :=
  match err with
  | none => false
  | some e => e.asMatch target

/-- Go stdlib `errors.As(err, &ee)` with `ee` a fresh `Error` variable:
the boolean result together with the value assigned on success. -/
def errorsAsError (err : Option Err) : Option Error :=
  err.bind Err.findEnriched

/-- Errorf (src/errors.go lines 47-53): builds a fresh enriched error
whose cause is the plain error `fmt.Errorf` makes from the same
formatted text, with a freshly captured stack. -/
def Errorf (msg : String) (st : List Frame) : Error :=
  { err := some (.plain msg)
    stacktrace := some st
    message := msg
    payload := none
    code := 0 }

/-- WithMessage (src/errors.go lines 55-69): if `errors.As` finds an
`Error` in the chain, reuse that value, capturing a stack only if its
`stacktrace` field is nil and prefixing the message; otherwise build a
fresh enriched error wrapping `err` itself. -/
def WithMessage (err : Option Err) (msg : String) (st : List Frame) : Error :=
  match errorsAsError err with
  | some parentEnhancedError =>
      let withStack : Error :=
        match parentEnhancedError.stacktrace with
        | none => { parentEnhancedError with stacktrace := some st }
        | some _ => parentEnhancedError
      { withStack with message := msg ++ ": " ++ withStack.message }
  | none =>
      { err := err
        stacktrace := some st
        message := msg
        payload := none
        code := 0 }

/-- WithPayload (src/errors.go lines 71-74). -/
def Error.WithPayload (ee : Error) (payload : Option Payload) : Error :=
  { ee with payload := payload }

/-- WithCode (src/errors.go lines 76-79). -/
def Error.WithCode (ee : Error) (code : Int) : Error :=
  { ee with code := code }

/-- WithStacktrace (src/errors.go lines 81-84): recaptures the stack. -/
def Error.WithStacktrace (ee : Error) (st : List Frame) : Error :=
  { ee with stacktrace := some st }

/-- The `Error() string` method on the struct (src/errors.go lines 20-22). -/
def Error.Error (ee : Error) : String :=
  ee.message

/-- A value added to the zap object encoder: `AddString` adds a string,
`AddReflected` a reflected value, `zap.Any` of a string map a map. -/
inductive LogVal where
  | str (s : String)
  | reflected (s : String)
  | strMap (entries : List (String × String))
deriving DecidableEq, Repr

/-- The text `fmt.Fprintf(buffer, "%s\t\n%s:%d\n", ...)` writes for one
frame (src/errors.go line 35). -/
def frameLine (f : Frame) : String :=
  f.function ++ "\t\n" ++ f.file ++ ":" ++ toString f.line ++ "\n"

/-- The full buffer contents for a frame slice, in slice order. -/
def stacktraceText (fs : List Frame) : String :=
  String.join (fs.map frameLine)

/-- encoder.AddReflected on a payload value: fails on `unencodable`. -/
def addReflected : Payload → Except String String
  | .value s => Except.ok s
  | .unencodable msg => Except.error msg

/-- MarshalLogObject (src/errors.go lines 28-45). Result `none` models
the panic of the nil-interface method call `ee.err.Error()` when the
message is non-empty but `ee.err` is nil; otherwise the result carries
the entries added to the encoder in order, and the error value the
method returns (`some m` exactly when `AddReflected` failed with `m`). -/
def MarshalLogObject (ee : Error) : Option (List (String × LogVal) × Option String) :=
  let msgStep : Option (List (String × LogVal)) :=
    if 0 < ee.message.length then
      match ee.err with
      | none => none
      | some c => some [("message", LogVal.str c.errorText)]
    else some []
  match msgStep with
  | none => none
  | some ms =>
    let sts : List (String × LogVal) :=
      match ee.stacktrace with
      | some fs => if 0 < fs.length then [("stacktrace", LogVal.str (stacktraceText fs))] else []
      | none => []
    match ee.payload with
    | none => some (ms ++ sts, none)
    | some p =>
      match addReflected p with
      | Except.ok v => some (ms ++ sts ++ [("payload", LogVal.reflected v)], none)
      | Except.error m => some (ms ++ sts, some m)

/-- A zap field as produced by `Field`: `zap.Object` defers rendering
of the carried `Error` to `MarshalLogObject`; `zap.Any` of a string map
carries the map; `zap.Skip()` is the no-op field. -/
inductive ZapField where
  | object (key : String) (ee : Error)
  | any (key : String) (v : LogVal)
  | skip

/-- Field (src/errors.go lines 102-110). -/
def Field (err : Option Err) : ZapField :=
  match errorsAsError err with
  | some ee => .object "error" ee
  | none =>
      match err with
      | some e => .any "error" (.strMap [("message", e.errorText)])
      | none => .skip

/-- As (src/errors.go lines 112-114): the body is
`errors.As(err, &target)` where `target` is the `interface\x7b\x7d`-typed
parameter, so the stdlib call receives a `*interface\x7b\x7d` target no
matter what the caller passed in `target`. -/
def As (err : Option Err) (target : AsTarget) : Bool :=
  errorsAs err .anyPtr

/-- Unwrap (src/errors.go lines 116-121): `errors.As(err, &Error\x7b\x7d)`
uses a genuine `*Error` target here. -/
def Unwrap (err : Option Err) : Option Err :=
  if errorsAs err .errorPtr then errorsUnwrap err else err

/-- Helper: the exact record and returned error `MarshalLogObject`
produces when the cause field is non-nil (so no panic occurs),
spelling out each conditional entry. -/
theorem marshal_shape (ee : Error) (c : Err) (hc : ee.err = some c) :
    MarshalLogObject ee =
      some (((if 0 < ee.message.length then [("message", LogVal.str c.errorText)] else []) ++
             (match ee.stacktrace with
              | some fs => if 0 < fs.length then [("stacktrace", LogVal.str (stacktraceText fs))] else []
              | none => []) ++
             (match ee.payload with
              | some (Payload.value v) => [("payload", LogVal.reflected v)]
              | _ => []),
            (match ee.payload with
             | some (Payload.unencodable m) => some m
             | _ => none))) := by
  obtain ⟨msg, payload, code, stacktrace, errf⟩ := ee
  simp only at hc
  subst hc
  by_cases hm : 0 < msg.length <;>
    rcases payload with _ | ⟨v⟩ | ⟨m⟩ <;>
      simp [MarshalLogObject, hm, addReflected]

/-- Claim C1 (code bug): the claim says `As(err, target)` is true iff
some value in the cause chain is assignable to the target's type. The
code passes `&target` — a pointer to the `interface\x7b\x7d`-typed
parameter — to `errors.As`, so every non-nil error matches: for a plain
error and an `*Error` target, `As` returns true although the chain
contains no enriched error (the genuine chain walk at that target type
yields false and finds nothing). -/
theorem As_target_ignored_failing :
    As (some (Err.plain "boom")) AsTarget.errorPtr = true
    ∧ errorsAs (some (Err.plain "boom")) AsTarget.errorPtr = false
    ∧ errorsAsError (some (Err.plain "boom")) = none :=
  ⟨rfl, rfl, rfl⟩

/-- Claim C2, counterexample: for a foreign wrapper around an enriched
error, the first matching Enriched Error's immediate cause is the plain
root, yet `Unwrap` returns the enriched error itself (one layer removed
from the outer wrapper), not that immediate cause. -/
theorem Unwrap_nested_cx :
    errorsAsError (some (Err.wrap "ctx" (Err.enriched "m" none 0 none (some (Err.plain "root"))))) =
      some ⟨"m", none, 0, none, some (Err.plain "root")⟩
    ∧ Unwrap (some (Err.wrap "ctx" (Err.enriched "m" none 0 none (some (Err.plain "root"))))) =
        some (Err.enriched "m" none 0 none (some (Err.plain "root")))
    ∧ some (Err.enriched "m" none 0 none (some (Err.plain "root"))) ≠ some (Err.plain "root") :=
  ⟨rfl, rfl, by intro h; injection h with h2; exact Err.noConfusion h2⟩

/-- Claim C2, amended: when `err`'s chain contains an Enriched Error,
`Unwrap err` is `errors.Unwrap err` — one unwrap step applied to `err`
itself; when `err` is itself the Enriched Error this is its immediate
cause (`ee.err`). When the chain contains no Enriched Error, `Unwrap`
returns `err` unchanged (hence never nil for non-nil input). -/
theorem Unwrap_spec (err : Option Err) :
    (errorsAs err AsTarget.errorPtr = true → Unwrap err = errorsUnwrap err)
    ∧ (errorsAs err AsTarget.errorPtr = false → Unwrap err = err)
    ∧ (∀ ee : Error, err = some ee.toErr → Unwrap err = ee.err) := by
  refine ⟨fun h => ?_, fun h => ?_, fun ee h => ?_⟩
  · simp [Unwrap, h]
  · simp [Unwrap, h]
  · subst h
    simp [Unwrap, errorsAs, Err.asMatch, Error.toErr, errorsUnwrap]

/-- Claim C2, witness: a plain error is returned unchanged, and for an
enriched error at the head of the chain the immediate cause comes back. -/
theorem Unwrap_spec_wit :
    Unwrap (some (Err.plain "x")) = some (Err.plain "x")
    ∧ Unwrap (some (Error.toErr (Errorf "boom" []))) = some (Err.plain "boom") :=
  ⟨(Unwrap_spec (some (Err.plain "x"))).2.1 rfl,
   (Unwrap_spec (some (Error.toErr (Errorf "boom" [])))).2.2 (Errorf "boom" []) rfl⟩

/-- Claim C3, counterexample: the rendered stacktrace entry for one
frame is the function name, a TAB, a newline, file:line and a trailing
newline — not the claimed function name, newline, file:line. -/
theorem stacktrace_format_cx :
    MarshalLogObject (Errorf "boom" [⟨"fn", "file.go", 7⟩]) =
      some ([("message", LogVal.str "boom"),
             ("stacktrace", LogVal.str "fn\t\nfile.go:7\n")], none)
    ∧ "fn\t\nfile.go:7\n" ≠ "fn" ++ "\n" ++ "file.go:7" :=
  ⟨rfl, by decide⟩

/-- Claim C3, amended: the stacktrace entry is the concatenation, over
the captured frames in capture order (innermost first), of the function
name, a tab, a newline, file:line, and a newline per frame (the Go
format string contains a tab before the newline and a trailing newline,
so each frame contributes two lines). -/
theorem stacktrace_entry_spec (ee : Error) (fs : List Frame) (c : Err)
    (hst : ee.stacktrace = some fs) (hne : fs ≠ []) (hc : ee.err = some c) :
    ∃ rec res, MarshalLogObject ee = some (rec, res)
      ∧ rec.lookup "stacktrace" =
          some (LogVal.str (String.join (fs.map (fun fr =>
            fr.function ++ "\t\n" ++ fr.file ++ ":" ++ toString fr.line ++ "\n")))) := by
  have hlen : 0 < fs.length := List.length_pos.mpr hne
  refine ⟨_, _, marshal_shape ee c hc, ?_⟩
  rw [hst]
  by_cases hm : 0 < ee.message.length <;>
    simp [hm, hlen, List.lookup, stacktraceText, frameLine] <;> rfl

/-- Claim C3, witness: the amended statement evaluated on a one-frame
enriched error. -/
theorem stacktrace_entry_spec_wit :
    ∃ rec res, MarshalLogObject (Errorf "boom" [⟨"fn", "file.go", 7⟩]) = some (rec, res)
      ∧ rec.lookup "stacktrace" =
          some (LogVal.str (String.join (([⟨"fn", "file.go", 7⟩] : List Frame).map (fun fr =>
            fr.function ++ "\t\n" ++ fr.file ++ ":" ++ toString fr.line ++ "\n")))) :=
  stacktrace_entry_spec (Errorf "boom" [⟨"fn", "file.go", 7⟩]) [⟨"fn", "file.go", 7⟩]
    (Err.plain "boom") rfl (by decide) rfl

/-- Claim C4: when `err`'s chain contains an Enriched Error (the value
`errors.As` assigns), `WithMessage` returns that value's state with the
message prefixed by the formatted text and a colon-space, the stack
captured now only if the existing one was nil, and cause, payload and
code unchanged; its textual representation is the prefix, colon-space,
and the prior enriched error's textual representation. -/
theorem WithMessage_enriched_reuse (err : Option Err) (msg : String) (st : List Frame)
    (pe : Error) (h : errorsAsError err = some pe) :
    (WithMessage err msg st).message = msg ++ ": " ++ pe.message
    ∧ (WithMessage err msg st).err = pe.err
    ∧ (WithMessage err msg st).payload = pe.payload
    ∧ (WithMessage err msg st).code = pe.code
    ∧ (WithMessage err msg st).stacktrace =
        (match pe.stacktrace with | none => some st | some fs => some fs)
    ∧ (WithMessage err msg st).Error = msg ++ ": " ++ pe.Error := by
  rcases pe with ⟨m, p, cd, stk, ef⟩
  rcases stk with _ | fs <;> simp [WithMessage, h, Error.Error]

/-- Claim C4, witness: wrapping the enriched error `Errorf "db"` with
prefix "init" yields message "init: db" and preserves the other fields. -/
theorem WithMessage_enriched_reuse_wit :
    (WithMessage (some (Errorf "db" []).toErr) "init" []).message = "init" ++ ": " ++ (Errorf "db" []).message
    ∧ (WithMessage (some (Errorf "db" []).toErr) "init" []).err = (Errorf "db" []).err
    ∧ (WithMessage (some (Errorf "db" []).toErr) "init" []).payload = (Errorf "db" []).payload
    ∧ (WithMessage (some (Errorf "db" []).toErr) "init" []).code = (Errorf "db" []).code
    ∧ (WithMessage (some (Errorf "db" []).toErr) "init" []).stacktrace =
        (match (Errorf "db" []).stacktrace with | none => some [] | some fs => some fs)
    ∧ (WithMessage (some (Errorf "db" []).toErr) "init" []).Error = "init" ++ ": " ++ (Errorf "db" []).Error :=
  WithMessage_enriched_reuse (some (Errorf "db" []).toErr) "init" [] (Errorf "db" []) rfl

/-- Claim C5: a non-empty captured stack trace survives any further
`WithMessage` wrap; wrapping a plain error twice keeps exactly the
first wrap's trace; `WithPayload` and `WithCode` never touch the trace,
and only `WithStacktrace` overwrites it (with a fresh capture). -/
theorem stacktrace_once :
    (∀ (err : Option Err) (msg : String) (st : List Frame) (pe : Error) (fs : List Frame),
        errorsAsError err = some pe → pe.stacktrace = some fs → fs ≠ [] →
        (WithMessage err msg st).stacktrace = some fs)
    ∧ (∀ (p m1 m2 : String) (st1 st2 : List Frame),
        (WithMessage (some (WithMessage (some (Err.plain p)) m1 st1).toErr) m2 st2).stacktrace = some st1)
    ∧ (∀ (ee : Error) (pl : Option Payload) (c : Int),
        (ee.WithPayload pl).stacktrace = ee.stacktrace ∧ (ee.WithCode c).stacktrace = ee.stacktrace)
    ∧ (∀ (ee : Error) (st : List Frame), (ee.WithStacktrace st).stacktrace = some st) := by
  refine ⟨?_, ?_, ?_, ?_⟩
  · intro err msg st pe fs h hs _
    rcases pe with ⟨m, p, cd, stk, ef⟩
    simp only [Error.stacktrace] at hs
    subst hs
    simp [WithMessage, h]
  · intro p m1 m2 st1 st2
    rfl
  · intro ee pl c
    exact ⟨rfl, rfl⟩
  · intro ee st
    rfl

/-- Claim C5, witness: re-wrapping an enriched error that already has a
one-frame trace keeps that trace even though the second capture is
empty. -/
theorem stacktrace_once_wit :
    (WithMessage (some (Errorf "db" [⟨"fn", "file.go", 7⟩]).toErr) "init" []).stacktrace =
      some [⟨"fn", "file.go", 7⟩] :=
  stacktrace_once.1 (some (Errorf "db" [⟨"fn", "file.go", 7⟩]).toErr) "init" []
    (Errorf "db" [⟨"fn", "file.go", 7⟩]) [⟨"fn", "file.go", 7⟩] rfl rfl (by decide)

/-- Claim C6: `Errorf` yields an enriched error whose textual
representation is the formatted string, whose cause is a fresh plain
error carrying the same text, whose stack is the fresh capture, and
whose payload and code are unset (nil and zero). -/
theorem Errorf_spec (msg : String) (st : List Frame) :
    (Errorf msg st).Error = msg
    ∧ (Errorf msg st).err = some (Err.plain msg)
    ∧ (Err.plain msg).errorText = msg
    ∧ (Errorf msg st).stacktrace = some st
    ∧ (Errorf msg st).payload = none
    ∧ (Errorf msg st).code = 0 :=
  ⟨rfl, rfl, rfl, rfl, rfl, rfl⟩

/-- Claim C7: for an enriched error with non-empty message and non-nil
cause, the rendered record's message entry holds the wrapped cause's
textual representation, while the error's own `Error()` method returns
the accumulated message string. -/
theorem marshal_message_root (ee : Error) (c : Err)
    (hm : 0 < ee.message.length) (hc : ee.err = some c) :
    ∃ rec res, MarshalLogObject ee = some (rec, res)
      ∧ rec.lookup "message" = some (LogVal.str c.errorText)
      ∧ ee.Error = ee.message := by
  refine ⟨_, _, marshal_shape ee c hc, ?_, rfl⟩
  rw [if_pos hm]
  rfl

/-- Claim C7, witness: on `Errorf "boom"` the record's message entry is
the cause's text. -/
theorem marshal_message_root_wit :
    ∃ rec res, MarshalLogObject (Errorf "boom" []) = some (rec, res)
      ∧ rec.lookup "message" = some (LogVal.str (Err.plain "boom").errorText)
      ∧ (Errorf "boom" []).Error = (Errorf "boom" []).message :=
  marshal_message_root (Errorf "boom" []) (Err.plain "boom") (by decide) rfl

/-- Claim C8: `Field` returns an "error"-keyed object field carrying
the assigned enriched error when the chain contains one, an
"error"-keyed field with the minimal message map for a non-nil
non-enriched error, and the skip (no-op) field for nil. -/
theorem Field_cases (err : Option Err) :
    (∀ ee : Error, errorsAsError err = some ee → Field err = ZapField.object "error" ee)
    ∧ (errorsAsError err = none → ∀ e, err = some e →
        Field err = ZapField.any "error" (LogVal.strMap [("message", e.errorText)]))
    ∧ (err = none → Field err = ZapField.skip) := by
  refine ⟨fun ee h => ?_, fun h e he => ?_, fun h => ?_⟩
  · simp [Field, h]
  · subst he
    simp [Field, h]
  · subst h
    rfl

/-- Claim C8, witness: the three cases evaluated on an enriched error,
a plain error, and nil. -/
theorem Field_cases_wit :
    Field (some (Errorf "boom" []).toErr) = ZapField.object "error" (Errorf "boom" [])
    ∧ Field (some (Err.plain "x")) = ZapField.any "error" (LogVal.strMap [("message", (Err.plain "x").errorText)])
    ∧ Field none = ZapField.skip :=
  ⟨(Field_cases (some (Errorf "boom" []).toErr)).1 (Errorf "boom" []) rfl,
   (Field_cases (some (Err.plain "x"))).2.1 rfl (Err.plain "x") rfl,
   (Field_cases none).2.2 rfl⟩

/-- Claim C9: each fluent builder sets exactly its own field —
`WithPayload` the payload, `WithCode` the code, `WithStacktrace` the
freshly captured trace — leaving every other field as on the receiver;
and when the payload's structural encoding fails, `MarshalLogObject`
returns that failure to its caller. -/
theorem builders_one_field :
    (∀ (ee : Error) (pl : Option Payload),
        (ee.WithPayload pl).payload = pl ∧ (ee.WithPayload pl).message = ee.message
        ∧ (ee.WithPayload pl).code = ee.code ∧ (ee.WithPayload pl).stacktrace = ee.stacktrace
        ∧ (ee.WithPayload pl).err = ee.err)
    ∧ (∀ (ee : Error) (c : Int),
        (ee.WithCode c).code = c ∧ (ee.WithCode c).message = ee.message
        ∧ (ee.WithCode c).payload = ee.payload ∧ (ee.WithCode c).stacktrace = ee.stacktrace
        ∧ (ee.WithCode c).err = ee.err)
    ∧ (∀ (ee : Error) (st : List Frame),
        (ee.WithStacktrace st).stacktrace = some st ∧ (ee.WithStacktrace st).message = ee.message
        ∧ (ee.WithStacktrace st).payload = ee.payload ∧ (ee.WithStacktrace st).code = ee.code
        ∧ (ee.WithStacktrace st).err = ee.err)
    ∧ (∀ (ee : Error) (c : Err) (m : String),
        ee.err = some c → ee.payload = some (Payload.unencodable m) →
        ∃ rec, MarshalLogObject ee = some (rec, some m)) := by
  refine ⟨fun ee pl => ⟨rfl, rfl, rfl, rfl, rfl⟩,
          fun ee c => ⟨rfl, rfl, rfl, rfl, rfl⟩,
          fun ee st => ⟨rfl, rfl, rfl, rfl, rfl⟩,
          fun ee c m hc hp => ?_⟩
  have h := marshal_shape ee c hc
  rw [hp] at h
  exact ⟨_, h⟩

/-- Claim C9, witness: rendering an enriched error carrying an
unencodable payload returns the encoding failure. -/
theorem builders_one_field_wit :
    ∃ rec, MarshalLogObject ((Errorf "boom" []).WithPayload (some (Payload.unencodable "nope"))) =
      some (rec, some "nope") :=
  builders_one_field.2.2.2 ((Errorf "boom" []).WithPayload (some (Payload.unencodable "nope")))
    (Err.plain "boom") "nope" rfl rfl

/-- Claim C10 (code bug): `WithMessage nil` produces an enriched error
with non-empty message and nil cause, and rendering it — which `Field`
hands to the encoder as an object field — reaches the nil-interface
method call `ee.err.Error()` on the message branch: the model's panic
result (`none`). The claim that the nil cause is never dereferenced is
what the code was meant to satisfy, and it fails here. -/
theorem marshal_nil_cause_panics :
    (WithMessage none "boom" []).err = none
    ∧ 0 < (WithMessage none "boom" []).message.length
    ∧ MarshalLogObject (WithMessage none "boom" []) = none
    ∧ Field (some (WithMessage none "boom" []).toErr) = ZapField.object "error" (WithMessage none "boom" []) :=
  ⟨rfl, by decide, rfl, rfl⟩

end ZapErrors
